import Mathlib

/-!
Shallow embedding of `src/chatter.py`: the chat-command handler of one game
session (data model, PV builder, command dispatcher, subscription registry,
periodic broadcast trigger), together with proofs of the specification's
claims about it.

The session's collaborators (`API`, `Chat_Message`, `Game_Information`,
`Lichess_Game`, the `python-chess` board, `random.choice`) are not part of
the given sources; the fields and operations the chatter reads from them are
modelled from the spec, and outbound `api.send_chat_message` calls are
recorded as a list of `Send` values.
-/

/-- Modelled from the spec: room identifiers are limited to exactly two
values, player and spectator (the `Chat_Message.room` field; the
`Chat_Message` dataclass lives in `botli_dataclasses`, which is not among
the given sources). -/
inductive Room where
  | player
  | spectator
  deriving DecidableEq, Repr

/-- The string the remote protocol uses for each room. -/
def Room.toStr : Room → String
  | .player => "player"
  | .spectator => "spectator"

/-- Modelled from the spec: an inbound chat event, one `Chat_Message`
`{username, room, text}`, immutable. -/
structure Chat_Message where
  username : String
  room : Room
  text : String
  deriving DecidableEq, Repr

/-- Abstraction of the `python-chess` board as consulted by `_append_pv`:
only the side to move (`turn`, `true` = White) and the `fullmove_number`
are read by the chatter; algebraic rendering `board.san(move)` is an
external oracle, see `Externals`. -/
structure Board where
  turn : Bool
  fullmove_number : Nat
  deriving DecidableEq, Repr

/-- `board.push(move)` on the abstracted state: the side to move flips and
the fullmove number increments after Black's move. -/
def Board.push_turn (b : Board) : Board :=
  if b.turn then ⟨false, b.fullmove_number⟩ else ⟨true, b.fullmove_number + 1⟩

/-- `board.pop()` on the abstracted state: inverse of `Board.push_turn`. -/
def Board.pop_turn (b : Board) : Board :=
  if b.turn then ⟨false, b.fullmove_number - 1⟩ else ⟨true, b.fullmove_number⟩

/-- Modelled from the spec: the fields of the read-only game snapshot
(`Lichess_Game`) that `chatter.py` reads.  `own_time` is the agent's
remaining clock in seconds (a rational stands in for the Python float,
exact at every value the claims use). -/
structure Lichess_Game where
  own_time : ℚ
  last_message : String
  last_pv : List String
  is_our_turn : Bool
  board : Board
  engine_name : String
  is_white : Bool

/-- Modelled from the spec: the fields of `Game_Information` that
`chatter.py` reads. -/
structure Game_Information where
  id_ : String
  increment_ms : Nat
  initial_time_ms : Nat
  white_name : String
  black_name : String

/-- The `Chatter` session: the strings `__init__` precomputes (hardware and
static messages, opaque to this core) plus the one mutable component, the
subscription registry `print_eval_rooms` (a Python `set`, embedded as a
`Finset Room`; `__init__` creates it empty). -/
structure Chatter where
  username : String
  game_info : Game_Information
  lichess_game : Lichess_Game
  cpu_message : String
  draw_message : String
  name_message : String
  ram_message : String
  print_eval_rooms : Finset Room

/-- External collaborators of the dispatcher: `san b m` renders move `m` in
algebraic form on board `b` (`python-chess` `board.san`), `pick` models
`random.choice` over a static text table. -/
structure Externals where
  san : Board → String → String
  pick : List String → String

/-- One outbound `api.send_chat_message(game_id, room, text)` call. -/
structure Send where
  game_id : String
  room : Room
  text : String
  deriving DecidableEq, Repr

/-- The board `_append_pv` annotates from: one ply popped when the
evaluation was computed on the agent's own turn, the current board
otherwise. -/
def pv_board (is_our_turn : Bool) (board : Board) : Board :=
  if is_our_turn then board.pop_turn else board

/-- The accumulated state of `_append_pv` before its walk: the incoming
message plus a separating space when non-empty, then the label, which is
the bare string PV-colon when White is to move in the annotated position
and otherwise PV-colon, a space, the fullmove number and three dots. -/
def pv_label (is_our_turn : Bool) (board : Board) (initial_message : String) : String :=
  let msg := if initial_message = "" then initial_message else initial_message ++ " "
  let b := pv_board is_our_turn board
  if b.turn then msg ++ "PV:"
  else msg ++ "PV: " ++ toString b.fullmove_number ++ "..."

/-- One iteration's two append statements of `_append_pv`'s loop: before a
White move the fullmove number and a dot are appended, then a space and the
move's algebraic rendering. -/
def pv_step (san : Board → String → String) (board : Board) (s : String) (move : String) : String :=
  (if board.turn then s ++ " " ++ toString board.fullmove_number ++ "." else s)
    ++ " " ++ san board move

/-- The `for` loop of `_append_pv` over `last_pv[1:]`: a state longer than
140 characters aborts the walk and the previous `final_message` is
returned, so the overlong move is dropped whole.  At every loop entry of
the source `final_message` equals `initial_message`; both are carried to
mirror the source. -/
def append_pv_loop (san : Board → String → String) :
    List String → Board → String → String → String
  | [], _, _, final_message => final_message
  | move :: rest, board, initial_message, final_message =>
    let msg2 := pv_step san board initial_message move
    if msg2.length > 140 then final_message
    else append_pv_loop san rest board.push_turn msg2 msg2

/-- `_append_pv`: returns the incoming message unchanged when fewer than 2
moves are available, otherwise walks `last_pv[1:]` from `pv_label`
under the 140-character budget. -/
def append_pv (san : Board → String → String) (is_our_turn : Bool)
    (board : Board) (last_pv : List String) (initial_message : String) : String :=
  if last_pv.length < 2 then initial_message
  else
    let label := pv_label is_our_turn board initial_message
    append_pv_loop san last_pv.tail (pv_board is_our_turn board) label label

/-- Every accumulated state of the `_append_pv` walk, budget ignored: the
label, then the state after each annotated move.  Each element ends exactly
at a move / move-number token boundary by construction. -/
def pv_states (san : Board → String → String) :
    List String → Board → String → List String
  | [], _, s => [s]
  | move :: rest, board, s =>
    s :: pv_states san rest board.push_turn (pv_step san board s move)

/-- The first seven flavor strings of `_get_random_roast`'s table. -/
def roasts : List String :=
  ["You play like your pieces are allergic to the center.",
   "Your strategy is so deep, it hasn't surfaced yet.",
   "I’ve seen pawns with more ambition than your whole army.",
   "You're like a blunder wrapped in an inaccuracy.",
   "Even Stockfish ran out of evals trying to explain your moves.",
   "You treat the king like a tourist — always wandering.",
   "You play like your mouse is on strike."]

/-- The flavor strings of `_get_random_destroy`'s table. -/
def destroys : List String :=
  ["I’m not just winning — I’m rewriting your opening book in real time.",
   "This isn’t a game anymore. It’s a live demo of how to dismantle a player.",
   "You're not losing, you're being systematically erased.",
   "Your board is starting to look like a clearance sale — everything must go!",
   "If this were a movie, you'd already be rolling the credits.",
   "You brought a pawn to a queen fight.",
   "This isn't just checkmate — it's checkmate with style."]

/-- The flavor strings of `_get_random_quote`'s table. -/
def quotes_table : List String :=
  ["“In life, as in chess, forethought wins.” – Charles Buxton",
   "“Even a poor plan is better than no plan at all.” – Mikhail Chigorin",
   "“Every master was once a beginner.”",
   "“Play the opening like a book, the middlegame like a magician, and the endgame like a machine.” – Rudolf Spielmann",
   "“The blunders are all there on the board, waiting to be made.” – Savielly Tartakower",
   "“You must take your opponent into a deep dark forest where 2+2=5, and the path leading out is only wide enough for one.” – Tal",
   "“Great moves often come from great pain.”",
   "“The beauty of a move lies not in its appearance but in the thought behind it.” – Aaron Nimzowitsch"]

/-- Python `' '.join(s.split())`: collapse every whitespace run to one
space and drop leading and trailing whitespace. -/
def normalize_spaces (s : String) : String :=
  String.intercalate " " ((s.split Char.isWhitespace).filter (fun w => w ≠ ""))

/-- `_send_last_message`: the game's last engine message with the word
Engine replaced by Evaluation and whitespace collapsed, the PV appended for
the spectator room, sent to `room`. -/
def _send_last_message (ext : Externals) (c : Chatter) (room : Room) : Send :=
  let last_message := normalize_spaces (c.lichess_game.last_message.replace "Engine" "Evaluation")
  let last_message := if room = Room.spectator
    then append_pv ext.san c.lichess_game.is_our_turn c.lichess_game.board
      c.lichess_game.last_pv last_message
    else last_message
  ⟨c.game_info.id_, room, last_message⟩

/-- The help text for the player room. -/
def help_player : String :=
  "Supported commands: !cpu, !draw, !eval, !motor, !name, !printeval, !ram, !roast, !destroy, !quotes"

/-- The help text for every other room. -/
def help_other : String :=
  "Supported commands: !cpu, !draw, !eval, !motor, !name, !printeval, !pv, !ram, !roast, !destroy, !quotes"

/-- Python `chat_message.text[1:].lower()`: drop the marker character and
lower-case the rest, character-wise (`str.lower` agrees with
`Char.toLower` on the ASCII command keywords the dispatcher compares
against). -/
def command_token (text : String) : String :=
  String.mk ((text.data.drop 1).map Char.toLower)

/-- Python `text.startswith(the one-character marker)`: the text's first
character is the marker. -/
def starts_with_marker (text : String) : Bool :=
  match text.data with
  | [] => false
  | ch :: _ => ch = Char.ofNat 33

/-- `_handle_command`: dispatch on the lower-cased text after the leading
marker (Python's `match` on `chat_message.text[1:].lower()`); the result is
the updated session state and the outbound sends, in order.  An unmatched
command falls through silently. -/
def _handle_command (ext : Externals) (c : Chatter) (m : Chat_Message) :
    Chatter × List Send :=
  let t := command_token m.text
  if t = "cpu" then (c, [⟨c.game_info.id_, m.room, c.cpu_message⟩])
  else if t = "draw" then (c, [⟨c.game_info.id_, m.room, c.draw_message⟩])
  else if t = "eval" then (c, [_send_last_message ext c m.room])
  else if t = "motor" then (c, [⟨c.game_info.id_, m.room, c.lichess_game.engine_name⟩])
  else if t = "name" then (c, [⟨c.game_info.id_, m.room, c.name_message⟩])
  else if t = "printeval" then
    if c.game_info.increment_ms = 0 ∧ c.game_info.initial_time_ms < 180000 then
      (c, [_send_last_message ext c m.room])
    else if m.room ∈ c.print_eval_rooms then (c, [])
    else ({c with print_eval_rooms := insert m.room c.print_eval_rooms},
          [⟨c.game_info.id_, m.room, "Type !quiet to stop eval printing."⟩,
           _send_last_message ext c m.room])
  else if t = "quiet" then
    ({c with print_eval_rooms := c.print_eval_rooms.erase m.room}, [])
  else if t = "pv" then
    if m.room = Room.player then (c, [])
    else
      let message := append_pv ext.san c.lichess_game.is_our_turn c.lichess_game.board
        c.lichess_game.last_pv ""
      let message := if message = "" then "No modules available." else message
      (c, [⟨c.game_info.id_, m.room, message⟩])
  else if t = "ram" then (c, [⟨c.game_info.id_, m.room, c.ram_message⟩])
  else if t = "roast" then (c, [⟨c.game_info.id_, m.room, ext.pick roasts⟩])
  else if t = "destroy" ∨ t = "troll" then (c, [⟨c.game_info.id_, m.room, ext.pick destroys⟩])
  else if t = "quotes" then (c, [⟨c.game_info.id_, m.room, ext.pick quotes_table⟩])
  else if t = "help" ∨ t = "commands" then
    (c, [⟨c.game_info.id_, m.room,
          if m.room = Room.player then help_player else help_other⟩])
  else (c, [])

/-- The echoed line `handle_chat_message` prints for a message not authored
by the agent: username, room and text, broken after 128 characters with an
alignment indent. -/
def echo_line (m : Chat_Message) : String :=
  let pre := m.username ++ " (" ++ m.room.toStr ++ "): "
  let output := pre ++ m.text
  if output.length > 128 then
    output.take 128 ++ "\n" ++ String.mk (List.replicate pre.length ' ') ++ output.drop 128
  else output

/-- `handle_chat_message`: a message from the system sender lichess is only
printed (and only when addressed to the player room); otherwise the line is
echoed unless self-authored, and dispatched as a command exactly when its
text starts with the marker.  The third component records the printed
lines. -/
def handle_chat_message (ext : Externals) (c : Chatter) (m : Chat_Message) :
    Chatter × List Send × List String :=
  if m.username = "lichess" then
    (c, [], if m.room = Room.player then [m.text] else [])
  else
    let logs := if m.username ≠ c.username then [echo_line m] else []
    if starts_with_marker m.text then
      let r := _handle_command ext c m
      (r.1, r.2, logs)
    else (c, [], logs)

/-- A fixed iteration order for the two-element room type, standing in for
Python's unobservable set iteration order in `print_eval`. -/
def rooms_list (s : Finset Room) : List Room :=
  (if Room.player ∈ s then [Room.player] else []) ++
    (if Room.spectator ∈ s then [Room.spectator] else [])

/-- `print_eval`, the periodic broadcast trigger: suppressed whole when the
game has no increment and the agent's own remaining time is below 30
seconds, otherwise one send per subscribed room. -/
def print_eval (ext : Externals) (c : Chatter) : List Send :=
  if c.game_info.increment_ms = 0 ∧ c.lichess_game.own_time < 30 then []
  else (rooms_list c.print_eval_rooms).map (_send_last_message ext c)

/-- The session state after handling a sequence of inbound chat events. -/
def run_chat (ext : Externals) (c : Chatter) (msgs : List Chat_Message) : Chatter :=
  msgs.foldl (fun st m => (handle_chat_message ext st m).1) c

/-- The event `m` issues the subscribe command from room `r`: it reaches the
dispatcher (non-system author, marker first) and selects the `printeval`
arm. -/
def subscribes (m : Chat_Message) (r : Room) : Prop :=
  m.username ≠ "lichess" ∧ starts_with_marker m.text = true ∧
    command_token m.text = "printeval" ∧ m.room = r

/-- Python `str.format_map` on its simple-named-field fragment: literal
text with brace-delimited fields, each field a plain identifier looked up
whole in the mapping.  On exactly that fragment (brace-free literals,
`simple_name` fields, the domain of the C3 theorem) CPython performs the
same whole-name lookup and cannot raise.  A stray closing brace or an
unterminated field raises `ValueError`, embedded as `none`.  Outside the
fragment — attribute access `a.b`, positional or element indexing `0`,
`x[1]`, conversions and format specs `x!r`, `x:>5`, double-brace escapes —
CPython takes error or formatting paths this model does not reproduce, so
no theorem here quantifies over such templates.  The `Option (List Char)`
argument holds the characters of the currently open field name, in
reverse, `none` when no field is open. -/
def format_map_aux (mapping : String → String) :
    List Char → Option (List Char) → Option (List Char)
  | [], none => some []
  | [], some _ => none
  | ch :: rest, none =>
    if ch = '\x7b' then format_map_aux mapping rest (some [])
    else if ch = '\x7d' then none
    else Option.map (fun tl => ch :: tl) (format_map_aux mapping rest none)
  | ch :: rest, some acc =>
    if ch = '\x7d' then
      Option.map (fun tl => (mapping (String.mk acc.reverse)).data ++ tl)
        (format_map_aux mapping rest none)
    else format_map_aux mapping rest (some (ch :: acc))

/-- `template.format_map(mapping)`: `none` is Python's exception channel
(semantics faithful on the simple-named-field fragment, see
`format_map_aux`). -/
def format_map (mapping : String → String) (template : String) : Option String :=
  Option.map String.mk (format_map_aux mapping template.data none)

/-- The `defaultdict(str, {...})` that `_format_message` builds: the five
known placeholders, the empty string for every other name. -/
def chatter_mapping (c : Chatter) : String → String :=
  fun k =>
    if k = "opponent" then
      (if c.lichess_game.is_white then c.game_info.black_name else c.game_info.white_name)
    else if k = "me" then c.username
    else if k = "engine" then c.lichess_game.engine_name
    else if k = "cpu" then c.cpu_message
    else if k = "ram" then c.ram_message
    else ""

/-- `_format_message`: a `None` or empty template yields no message
(`some none`, the sender skips); otherwise the template is substituted
through `chatter_mapping`.  The outer `Option` is Python's exception
channel, inherited from `format_map`. -/
def _format_message (c : Chatter) (message : Option String) : Option (Option String) :=
  match message with
  | none => some none
  | some msg =>
    if msg = "" then some none
    else Option.map some (format_map (chatter_mapping c) msg)

/-- A well-formed template shape: literal text interleaved with simple
brace-delimited placeholder fields. -/
inductive Segment where
  | lit (s : String)
  | ph (name : String)

/-- The template string a segment list denotes, placeholder names written
between braces. -/
def render_template : List Segment → String
  | [] => ""
  | .lit s :: rest => s ++ render_template rest
  | .ph n :: rest => "\x7b" ++ n ++ "\x7d" ++ render_template rest

/-- The same segment list after substituting every placeholder through
`mapping`. -/
def render_subst (mapping : String → String) : List Segment → String
  | [] => ""
  | .lit s :: rest => s ++ render_subst mapping rest
  | .ph n :: rest => mapping n ++ render_subst mapping rest

/-- Neither brace character occurs in `s`. -/
abbrev brace_free (s : String) : Prop :=
  ∀ ch ∈ s.data, ch ≠ '\x7b' ∧ ch ≠ '\x7d'

/-- A simple named replacement field of `str.format`: a non-empty run of
ASCII letters, digits and underscores that does not start with a digit.
On exactly such fields `str.format_map` performs a plain whole-name lookup
in the mapping — no attribute access (`a.b`), no positional or element
index (`0`, `x[1]`), no conversion or format spec (`x!r`, `x:>5`) — which
is the fragment `format_map_aux` models. -/
abbrev simple_name (n : String) : Prop :=
  n.data ≠ [] ∧
    (∀ ch ∈ n.data, ch.isAlpha = true ∨ ch = '_' ∨ ch.isDigit = true) ∧
    (∀ ch ∈ n.data.take 1, ch.isDigit = false)

/-- Well-formed template: literal text is brace free and every placeholder
is a simple named field. -/
def wf_segment : Segment → Prop
  | .lit s => brace_free s
  | .ph n => simple_name n


/-- A concrete external collaborator for the witnesses: `san` returns the
move string itself, `pick` the empty string. -/
def ext0 : Externals := ⟨fun _ mv => mv, fun _ => ""⟩

/-- A concrete no-increment bullet session: 60 seconds initial time, 10
seconds left on our clock, empty registry. -/
def fast_session : Chatter :=
  ⟨"cbbb", ⟨"gid", 0, 60000, "wh", "bl"⟩,
    ⟨10, "Engine: +0.5", ["e4", "e5"], false, ⟨true, 1⟩, "sf", true⟩,
    "cpu", "draw", "name", "ram", ∅⟩

/-- A concrete no-increment 5-minute session: 300 seconds initial time, 45
seconds left on our clock, empty registry. -/
def slow_session : Chatter :=
  ⟨"cbbb", ⟨"gid", 0, 300000, "wh", "bl"⟩,
    ⟨45, "Engine: +0.5", ["e4", "e5"], false, ⟨true, 1⟩, "sf", true⟩,
    "cpu", "draw", "name", "ram", ∅⟩

/-- `fast_session` with the spectator room subscribed. -/
def fast_subscribed : Chatter :=
  {fast_session with print_eval_rooms := {Room.spectator}}

/-- `slow_session` with the spectator room subscribed. -/
def slow_subscribed : Chatter :=
  {slow_session with print_eval_rooms := {Room.spectator}}

/-- `slow_session` with no computed principal variation. -/
def nopv_session : Chatter :=
  {slow_session with lichess_game := {slow_session.lichess_game with last_pv := []}}

/-! ## Lemmas about the PV walk -/

/-- Each step only ever extends the accumulated state. -/
theorem pv_step_extends (san : Board → String → String) (b : Board)
    (s : String) (move : String) :
    ∃ u, pv_step san b s move = s ++ u := by
  unfold pv_step
  by_cases hb : b.turn = true
  · exact ⟨" " ++ toString b.fullmove_number ++ "." ++ " " ++ san b move,
      by rw [if_pos hb]; simp [String.append_assoc]⟩
  · exact ⟨" " ++ san b move, by rw [if_neg hb]; simp [String.append_assoc]⟩

/-- The walk states always start with the entry accumulator. -/
theorem pv_states_eq_cons (san : Board → String → String)
    (moves : List String) (b : Board) (s : String) :
    ∃ l, pv_states san moves b s = s :: l := by
  cases moves <;> simp [pv_states]

/-- The incoming message is never longer than the pre-walk state. -/
theorem length_le_pv_label (t : Bool) (b : Board) (msg : String) :
    msg.length ≤ (pv_label t b msg).length := by
  by_cases h : msg = ""
  · simp [h]
  · simp only [pv_label, if_neg h]
    split <;> simp [String.length_append] <;> omega

/-- Entered within the budget, the loop stays within the budget. -/
theorem append_pv_loop_length (san : Board → String → String) :
    ∀ (moves : List String) (b : Board) (s : String), s.length ≤ 140 →
      (append_pv_loop san moves b s s).length ≤ 140 := by
  intro moves
  induction moves with
  | nil => intro b s hs; simpa [append_pv_loop] using hs
  | cons m rest ih =>
    intro b s hs
    simp only [append_pv_loop]
    by_cases hgt : (pv_step san b s m).length > 140
    · rw [if_pos hgt]; exact hs
    · rw [if_neg hgt]; exact ih _ _ (by omega)

/-- The loop only ever extends its entry accumulator. -/
theorem append_pv_loop_extends (san : Board → String → String) :
    ∀ (moves : List String) (b : Board) (s : String),
      ∃ tl, append_pv_loop san moves b s s = s ++ tl := by
  intro moves
  induction moves with
  | nil => intro b s; exact ⟨"", by simp [append_pv_loop]⟩
  | cons m rest ih =>
    intro b s
    simp only [append_pv_loop]
    by_cases hgt : (pv_step san b s m).length > 140
    · exact ⟨"", by rw [if_pos hgt]; simp⟩
    · obtain ⟨u, hu⟩ := pv_step_extends san b s m
      obtain ⟨tl, htl⟩ := ih b.push_turn (pv_step san b s m)
      refine ⟨u ++ tl, ?_⟩
      rw [if_neg hgt, htl, hu, String.append_assoc]

/-- Entered within the budget, the loop returns exactly the last walk state
within the budget: the scan of the walk states stops at the first
over-budget state and keeps the state reached just before it. -/
theorem append_pv_loop_eq_last_within (san : Board → String → String) :
    ∀ (moves : List String) (b : Board) (s : String), s.length ≤ 140 →
      append_pv_loop san moves b s s =
        ((pv_states san moves b s).takeWhile (fun x => decide (x.length ≤ 140))).getLastD "" := by
  intro moves
  induction moves with
  | nil =>
    intro b s hs
    simp [append_pv_loop, pv_states, List.takeWhile_cons_of_pos, hs]
  | cons m rest ih =>
    intro b s hs
    simp only [append_pv_loop, pv_states]
    rw [List.takeWhile_cons_of_pos (by simpa using hs)]
    obtain ⟨l, hl⟩ := pv_states_eq_cons san rest b.push_turn (pv_step san b s m)
    by_cases hgt : (pv_step san b s m).length > 140
    · rw [if_pos hgt, hl, List.takeWhile_cons_of_neg (by simp; omega)]
      rfl
    · rw [if_neg hgt, ih _ _ (by omega), hl,
        List.takeWhile_cons_of_pos (by simp; omega)]
      rw [List.getLastD_cons, List.getLastD_cons, List.getLastD_cons]

/-- With fewer than 2 moves `_append_pv` returns its message argument
unchanged. -/
theorem append_pv_short (san : Board → String → String) (t : Bool) (b : Board)
    (pv : List String) (msg : String) (h : pv.length < 2) :
    append_pv san t b pv msg = msg := by
  simp [append_pv, h]

/-- Claim C9: for every move list of length less than 2 and every prefix
string (including the empty string), the PV builder `_append_pv` returns
exactly the unmodified prefix argument. -/
theorem append_pv_short_returns_message (san : Board → String → String)
    (t : Bool) (b : Board) (pv : List String) (msg : String)
    (h : pv.length < 2) : append_pv san t b pv msg = msg :=
  append_pv_short san t b pv msg h

/-- Witness for claim C9 at a one-move list and a non-empty prefix. -/
theorem append_pv_short_returns_message_witness :
    (["e4"] : List String).length < 2 ∧
      append_pv (fun _ mv => mv) true ⟨true, 1⟩ ["e4"] "hello" = "hello" :=
  ⟨by decide,
    append_pv_short_returns_message (fun _ mv => mv) true ⟨true, 1⟩ ["e4"] "hello" (by decide)⟩

set_option maxRecDepth 4096 in
/-- Claim C1 as stated is false: with a 150-character incoming prefix and a
two-move PV, `_append_pv` returns a 154-character string, over the claimed
140-character bound. -/
theorem append_pv_budget_counterexample :
    140 < (append_pv (fun _ mv => mv) false ⟨true, 1⟩ ["a", "b"]
      (String.mk (List.replicate 150 'x'))).length := by
  decide

/-- Claim C1 amended: provided the accumulated state before the walk (the
prefix plus separating space plus PV label, `pv_label`) is itself within
the 140-character budget, `_append_pv` returns a string of length at most
140, and whenever the walk runs (at least 2 moves) the result is the last
accumulated walk state within the budget: the scan of `pv_states` stops at
the first over-budget state, so the move that pushed it over is discarded
whole and the result ends exactly at a move / move-number token
boundary. -/
theorem append_pv_budget (san : Board → String → String) (t : Bool) (b : Board)
    (pv : List String) (msg : String)
    (h : (pv_label t b msg).length ≤ 140) :
    (append_pv san t b pv msg).length ≤ 140 ∧
      (2 ≤ pv.length →
        append_pv san t b pv msg =
          ((pv_states san pv.tail (pv_board t b) (pv_label t b msg)).takeWhile
              (fun x => decide (x.length ≤ 140))).getLastD "") := by
  constructor
  · simp only [append_pv]
    split
    · exact le_trans (length_le_pv_label t b msg) h
    · exact append_pv_loop_length san _ _ _ h
  · intro h2
    simp only [append_pv]
    rw [if_neg (by omega)]
    exact append_pv_loop_eq_last_within san _ _ _ h

/-- Witness for the amended claim C1 at a concrete three-move PV with a
short prefix. -/
theorem append_pv_budget_witness :
    (pv_label false ⟨true, 1⟩ "score").length ≤ 140 ∧
      ((append_pv (fun _ mv => mv) false ⟨true, 1⟩ ["e4", "e5", "Nf3"] "score").length ≤ 140 ∧
        (2 ≤ (["e4", "e5", "Nf3"] : List String).length →
          append_pv (fun _ mv => mv) false ⟨true, 1⟩ ["e4", "e5", "Nf3"] "score" =
            ((pv_states (fun _ mv => mv) (["e4", "e5", "Nf3"] : List String).tail
                (pv_board false ⟨true, 1⟩) (pv_label false ⟨true, 1⟩ "score")).takeWhile
                (fun x => decide (x.length ≤ 140))).getLastD "")) :=
  ⟨by decide,
    append_pv_budget (fun _ mv => mv) false ⟨true, 1⟩ ["e4", "e5", "Nf3"] "score" (by decide)⟩

/-- Claim C2: the printeval guard.  With zero increment and initial time
under 180000 ms the command answers with a one-shot evaluation and leaves
the registry untouched; with zero increment and initial time at least
180000 ms it is a no-op on an already subscribed room and otherwise
subscribes the room and sends the acknowledgement plus the current
evaluation. -/
theorem printeval_guard (ext : Externals) (c : Chatter) (u : String) (room : Room)
    (hinc : c.game_info.increment_ms = 0) :
    (c.game_info.initial_time_ms < 180000 →
        _handle_command ext c ⟨u, room, "!printeval"⟩ =
          (c, [_send_last_message ext c room])) ∧
      (180000 ≤ c.game_info.initial_time_ms →
        (room ∈ c.print_eval_rooms →
            _handle_command ext c ⟨u, room, "!printeval"⟩ = (c, [])) ∧
          (room ∉ c.print_eval_rooms →
            _handle_command ext c ⟨u, room, "!printeval"⟩ =
              ({c with print_eval_rooms := insert room c.print_eval_rooms},
                [⟨c.game_info.id_, room, "Type !quiet to stop eval printing."⟩,
                 _send_last_message ext c room]))) := by
  have ht : command_token "!printeval" = "printeval" := by decide
  refine ⟨fun hfast => by simp [_handle_command, ht, hinc, hfast], fun hslow => ?_⟩
  have hg : ¬(c.game_info.increment_ms = 0 ∧ c.game_info.initial_time_ms < 180000) := by
    intro h
    omega
  exact ⟨fun hmem => by simp [_handle_command, ht, hg, hmem],
    fun hmem => by simp [_handle_command, ht, hg, hmem]⟩

/-- Witness for claim C2: the 60-second game answers one-shot without
subscribing, the 300-second game subscribes the spectator room and
acknowledges. -/
theorem printeval_guard_witness :
    _handle_command ext0 fast_session ⟨"bob", Room.spectator, "!printeval"⟩ =
        (fast_session, [_send_last_message ext0 fast_session Room.spectator]) ∧
      _handle_command ext0 slow_session ⟨"bob", Room.spectator, "!printeval"⟩ =
        ({slow_session with
            print_eval_rooms := insert Room.spectator slow_session.print_eval_rooms},
          [⟨slow_session.game_info.id_, Room.spectator, "Type !quiet to stop eval printing."⟩,
           _send_last_message ext0 slow_session Room.spectator]) :=
  ⟨(printeval_guard ext0 fast_session "bob" Room.spectator (by decide)).1 (by decide),
    ((printeval_guard ext0 slow_session "bob" Room.spectator (by decide)).2
      (by decide)).2 (by decide)⟩

/-- Claim C8: registry algebra.  Under the slow-game precondition,
subscribing (printeval) then unsubscribing (quiet) the same room leaves the
registry without that room; subscribing twice leaves the registry exactly
as subscribing once; unsubscribing a room that is not present leaves the
whole session unchanged (idempotent remove). -/
theorem registry_algebra (ext : Externals) (c : Chatter) (u : String) (room : Room)
    (hslow : ¬(c.game_info.increment_ms = 0 ∧ c.game_info.initial_time_ms < 180000)) :
    room ∉ (_handle_command ext
        (_handle_command ext c ⟨u, room, "!printeval"⟩).1
        ⟨u, room, "!quiet"⟩).1.print_eval_rooms ∧
      (_handle_command ext (_handle_command ext c ⟨u, room, "!printeval"⟩).1
          ⟨u, room, "!printeval"⟩).1.print_eval_rooms =
        (_handle_command ext c ⟨u, room, "!printeval"⟩).1.print_eval_rooms ∧
      (room ∉ c.print_eval_rooms → (_handle_command ext c ⟨u, room, "!quiet"⟩).1 = c) := by
  have hp : command_token "!printeval" = "printeval" := by decide
  have hq : command_token "!quiet" = "quiet" := by decide
  by_cases hmem : room ∈ c.print_eval_rooms
  · refine ⟨?_, ?_, ?_⟩
    · simp [_handle_command, hp, hq, hslow, hmem, Finset.not_mem_erase]
    · simp [_handle_command, hp, hslow, hmem]
    · intro h
      exact absurd hmem h
  · refine ⟨?_, ?_, ?_⟩
    · simp [_handle_command, hp, hq, hslow, hmem, Finset.not_mem_erase]
    · simp [_handle_command, hp, hslow, hmem, Finset.mem_insert_self]
    · intro h
      simp [_handle_command, hq, Finset.erase_eq_of_not_mem h]

/-- Witness for claim C8 at the 300-second session and the spectator
room. -/
theorem registry_algebra_witness :
    Room.spectator ∉ (_handle_command ext0
        (_handle_command ext0 slow_session ⟨"bob", Room.spectator, "!printeval"⟩).1
        ⟨"bob", Room.spectator, "!quiet"⟩).1.print_eval_rooms ∧
      (_handle_command ext0
          (_handle_command ext0 slow_session ⟨"bob", Room.spectator, "!printeval"⟩).1
          ⟨"bob", Room.spectator, "!printeval"⟩).1.print_eval_rooms =
        (_handle_command ext0 slow_session ⟨"bob", Room.spectator, "!printeval"⟩).1.print_eval_rooms ∧
      (Room.spectator ∉ slow_session.print_eval_rooms →
        (_handle_command ext0 slow_session ⟨"bob", Room.spectator, "!quiet"⟩).1 = slow_session) :=
  registry_algebra ext0 slow_session "bob" Room.spectator (by decide)

/-- Membership in the canonical iteration order agrees with membership in
the registry. -/
theorem mem_rooms_list (s : Finset Room) (r : Room) :
    r ∈ rooms_list s ↔ r ∈ s := by
  cases r <;> by_cases hp : Room.player ∈ s <;> by_cases hs : Room.spectator ∈ s <;>
    simp [rooms_list, hp, hs]

/-- Claim C5: the broadcast tick.  With zero increment and own remaining
time under 30 seconds no message is sent to any room; otherwise the
freshly rendered evaluation message is sent to every room currently in the
registry. -/
theorem print_eval_broadcast (ext : Externals) (c : Chatter) :
    (c.game_info.increment_ms = 0 → c.lichess_game.own_time < 30 →
        print_eval ext c = []) ∧
      (¬(c.game_info.increment_ms = 0 ∧ c.lichess_game.own_time < 30) →
        ∀ room ∈ c.print_eval_rooms,
          _send_last_message ext c room ∈ print_eval ext c) := by
  constructor
  · intro hinc htime
    simp [print_eval, hinc, htime]
  · intro hguard room hmem
    simp only [print_eval, if_neg hguard]
    exact List.mem_map_of_mem _ ((mem_rooms_list c.print_eval_rooms room).mpr hmem)

/-- Witness for claim C5: 10 seconds left suppresses the tick, 45 seconds
left broadcasts to the subscribed spectator room. -/
theorem print_eval_broadcast_witness :
    print_eval ext0 fast_subscribed = [] ∧
      _send_last_message ext0 slow_subscribed Room.spectator ∈
        print_eval ext0 slow_subscribed :=
  ⟨(print_eval_broadcast ext0 fast_subscribed).1 (by decide) (by norm_num [fast_subscribed, fast_session]),
    (print_eval_broadcast ext0 slow_subscribed).2
      (by norm_num [slow_subscribed, slow_session]) Room.spectator (by decide)⟩

/-- With an empty incoming message the pre-walk state starts with the PV
label. -/
theorem pv_label_empty (t : Bool) (b : Board) :
    ∃ u, pv_label t b "" = "PV:" ++ u := by
  unfold pv_label
  simp only [if_pos rfl]
  split
  · exact ⟨"", by simp⟩
  · refine ⟨" " ++ (toString (pv_board t b).fullmove_number ++ "..."), ?_⟩
    have h4 : ("PV: " : String) = "PV:" ++ " " := rfl
    simp only [String.empty_append, h4, String.append_assoc, if_true]

/-- With at least 2 moves and an empty incoming message, `_append_pv`
returns a string that starts with the PV label marker. -/
theorem append_pv_starts_pv (san : Board → String → String) (t : Bool)
    (b : Board) (pv : List String) (h : 2 ≤ pv.length) :
    ∃ u, append_pv san t b pv "" = "PV:" ++ u := by
  simp only [append_pv]
  rw [if_neg (by omega)]
  obtain ⟨u1, hu1⟩ := pv_label_empty t b
  obtain ⟨u2, hu2⟩ := append_pv_loop_extends san pv.tail (pv_board t b) (pv_label t b "")
  exact ⟨u1 ++ u2, by rw [hu2, hu1, String.append_assoc]⟩

/-- Claim C6: the pv command.  Issued in the player room it produces no
outbound message; issued in the spectator room with at least 2 moves in
the principal variation it sends the PV string, which starts with the
PV-colon marker (the mid-pair form continues with the fullmove number and
dots); with fewer than 2 moves it sends the fallback message. -/
theorem pv_command (ext : Externals) (c : Chatter) (u : String) :
    _handle_command ext c ⟨u, Room.player, "!pv"⟩ = (c, []) ∧
      (2 ≤ c.lichess_game.last_pv.length →
        ∃ tl, _handle_command ext c ⟨u, Room.spectator, "!pv"⟩ =
            (c, [⟨c.game_info.id_, Room.spectator, "PV:" ++ tl⟩])) ∧
      (c.lichess_game.last_pv.length < 2 →
        _handle_command ext c ⟨u, Room.spectator, "!pv"⟩ =
          (c, [⟨c.game_info.id_, Room.spectator, "No modules available."⟩])) := by
  have ht : command_token "!pv" = "pv" := by decide
  refine ⟨by simp [_handle_command, ht], fun h2 => ?_, fun h2 => ?_⟩
  · obtain ⟨tl, htl⟩ := append_pv_starts_pv ext.san c.lichess_game.is_our_turn
      c.lichess_game.board c.lichess_game.last_pv h2
    have hne : ("PV:" ++ tl : String) ≠ "" := by
      intro hcontra
      have hlen := congrArg String.length hcontra
      rw [String.length_append] at hlen
      have h3 : ("PV:" : String).length = 3 := rfl
      have h0 : ("" : String).length = 0 := rfl
      omega
    exact ⟨tl, by simp [_handle_command, ht, htl, hne]⟩
  · have hres := append_pv_short ext.san c.lichess_game.is_our_turn
      c.lichess_game.board c.lichess_game.last_pv "" h2
    simp [_handle_command, ht, hres]

/-- Witness for claim C6 at the 300-second session (two-move PV) and the
session without a principal variation. -/
theorem pv_command_witness :
    _handle_command ext0 slow_session ⟨"bob", Room.player, "!pv"⟩ = (slow_session, []) ∧
      (∃ tl, _handle_command ext0 slow_session ⟨"bob", Room.spectator, "!pv"⟩ =
          (slow_session, [⟨slow_session.game_info.id_, Room.spectator, "PV:" ++ tl⟩])) ∧
      _handle_command ext0 nopv_session ⟨"bob", Room.spectator, "!pv"⟩ =
        (nopv_session, [⟨nopv_session.game_info.id_, Room.spectator, "No modules available."⟩]) :=
  ⟨(pv_command ext0 slow_session "bob").1,
    (pv_command ext0 slow_session "bob").2.1 (by decide),
    (pv_command ext0 nopv_session "bob").2.2 (by decide)⟩

/-- Claim C7: dispatch independence.  A message from the system sender
lichess is only logged, and only when addressed to the player room, and is
never dispatched even when its text carries the marker; for every other
author, the agent itself included, the state change and the outbound sends
are exactly those of the dispatcher when the text starts with the marker
and nothing otherwise, independent of the author-based echo
suppression. -/
theorem chat_dispatch_independence (ext : Externals) (c : Chatter) (m : Chat_Message)
    (h : m.username ≠ "lichess") :
    (handle_chat_message ext c
          ⟨"lichess", m.room, m.text⟩ =
        (c, [], if m.room = Room.player then [m.text] else [])) ∧
      (handle_chat_message ext c m).1 =
        (if starts_with_marker m.text then (_handle_command ext c m).1 else c) ∧
      (handle_chat_message ext c m).2.1 =
        (if starts_with_marker m.text then (_handle_command ext c m).2 else []) := by
  refine ⟨by simp [handle_chat_message], ?_, ?_⟩ <;>
    by_cases hm : starts_with_marker m.text <;>
      simp [handle_chat_message, h, hm]

/-- Witness for claim C7: a lichess-authored marker text is only logged; a
self-authored marker text is dispatched. -/
theorem chat_dispatch_independence_witness :
    (handle_chat_message ext0 slow_session ⟨"lichess", Room.player, "!cpu"⟩ =
        (slow_session, [],
          if Room.player = Room.player then ["!cpu"] else [])) ∧
      (handle_chat_message ext0 slow_session ⟨"cbbb", Room.player, "!cpu"⟩).1 =
        (if starts_with_marker "!cpu" then
          (_handle_command ext0 slow_session ⟨"cbbb", Room.player, "!cpu"⟩).1 else slow_session) ∧
      (handle_chat_message ext0 slow_session ⟨"cbbb", Room.player, "!cpu"⟩).2.1 =
        (if starts_with_marker "!cpu" then
          (_handle_command ext0 slow_session ⟨"cbbb", Room.player, "!cpu"⟩).2 else []) :=
  chat_dispatch_independence ext0 slow_session ⟨"cbbb", Room.player, "!cpu"⟩ (by decide)

/-- Claim C10: frame property of the pv and eval commands.  Handling
either command leaves the whole session state — the game snapshot with its
board and principal variation and the subscription registry — unchanged;
the outbound send list is the only output.  (The source walks a copy of
the board inside `_append_pv`; in this embedding the builder is
correspondingly a pure function of the snapshot.) -/
theorem pv_eval_commands_frame (ext : Externals) (c : Chatter) (u : String) (room : Room) :
    (_handle_command ext c ⟨u, room, "!pv"⟩).1 = c ∧
      (_handle_command ext c ⟨u, room, "!eval"⟩).1 = c := by
  have hp : command_token "!pv" = "pv" := by decide
  have he : command_token "!eval" = "eval" := by decide
  constructor
  · by_cases hr : room = Room.player <;> simp [_handle_command, hp, hr]
  · simp [_handle_command, he]

/-- The dispatcher's effect on the session state, in closed form: only the
printeval arm (insert, under its guards) and the quiet arm (erase) touch
the registry; every other command leaves the state unchanged. -/
theorem handle_command_state (ext : Externals) (c : Chatter) (m : Chat_Message) :
    (_handle_command ext c m).1 =
      if command_token m.text = "printeval" then
        (if c.game_info.increment_ms = 0 ∧ c.game_info.initial_time_ms < 180000 then c
          else if m.room ∈ c.print_eval_rooms then c
          else {c with print_eval_rooms := insert m.room c.print_eval_rooms})
      else if command_token m.text = "quiet" then
        {c with print_eval_rooms := c.print_eval_rooms.erase m.room}
      else c := by
  by_cases h1 : command_token m.text = "cpu"
  · simp [_handle_command, h1]
  by_cases h2 : command_token m.text = "draw"
  · simp [_handle_command, h2]
  by_cases h3 : command_token m.text = "eval"
  · simp [_handle_command, h3]
  by_cases h4 : command_token m.text = "motor"
  · simp [_handle_command, h4]
  by_cases h5 : command_token m.text = "name"
  · simp [_handle_command, h5]
  by_cases h6 : command_token m.text = "printeval"
  · by_cases hg : c.game_info.increment_ms = 0 ∧ c.game_info.initial_time_ms < 180000
    · simp [_handle_command, h6, hg]
    by_cases hmem : m.room ∈ c.print_eval_rooms
    · simp [_handle_command, h6, hg, hmem]
    · simp [_handle_command, h6, hg, hmem]
  by_cases h7 : command_token m.text = "quiet"
  · simp [_handle_command, h7]
  by_cases h8 : command_token m.text = "pv"
  · by_cases hp : m.room = Room.player <;> simp [_handle_command, h8, h6, hp]
  by_cases h9 : command_token m.text = "ram"
  · simp [_handle_command, h9]
  by_cases h10 : command_token m.text = "roast"
  · simp [_handle_command, h10]
  by_cases h11 : command_token m.text = "destroy" ∨ command_token m.text = "troll"
  · simp [_handle_command, h11, h6, h7]
    rcases h11 with h11 | h11 <;> simp [h11]
  by_cases h12 : command_token m.text = "quotes"
  · simp [_handle_command, h12]
  by_cases h13 : command_token m.text = "help" ∨ command_token m.text = "commands"
  · simp [_handle_command, h13, h6, h7]
    rcases h13 with h13 | h13 <;> simp [h13]
  · simp [_handle_command, h1, h2, h3, h4, h5, h6, h7, h8, h9, h10, h11, h12, h13]

/-- A room found in the registry after one dispatched command was either
already there or is the room of a printeval command. -/
theorem mem_rooms_after_command (ext : Externals) (c : Chatter) (m : Chat_Message)
    (room : Room) (h : room ∈ (_handle_command ext c m).1.print_eval_rooms) :
    room ∈ c.print_eval_rooms ∨ (command_token m.text = "printeval" ∧ m.room = room) := by
  rw [handle_command_state] at h
  split_ifs at h with h1 h2 h3 h4
  · exact Or.inl h
  · exact Or.inl h
  · rcases Finset.mem_insert.mp h with hr | hr
    · exact Or.inr ⟨h1, hr.symm⟩
    · exact Or.inl hr
  · exact Or.inl (Finset.mem_of_mem_erase h)
  · exact Or.inl h

/-- A room found in the registry after one handled chat event was either
already there or that event subscribed it. -/
theorem mem_rooms_after_handle (ext : Externals) (c : Chatter) (m : Chat_Message)
    (room : Room) (h : room ∈ (handle_chat_message ext c m).1.print_eval_rooms) :
    room ∈ c.print_eval_rooms ∨ subscribes m room := by
  unfold handle_chat_message at h
  by_cases hl : m.username = "lichess"
  · rw [if_pos hl] at h
    exact Or.inl h
  · rw [if_neg hl] at h
    by_cases hm : starts_with_marker m.text
    · simp only [hm, if_true] at h
      rcases mem_rooms_after_command ext c m room h with h' | ⟨ht, hr⟩
      · exact Or.inl h'
      · exact Or.inr ⟨hl, hm, ht, hr⟩
    · simp only [hm, if_false] at h
      exact Or.inl h

/-- A room found in the registry after a handled sequence was either there
at the start or some event of the sequence subscribed it. -/
theorem mem_rooms_run_chat (ext : Externals) :
    ∀ (msgs : List Chat_Message) (c : Chatter) (room : Room),
      room ∈ (run_chat ext c msgs).print_eval_rooms →
      room ∈ c.print_eval_rooms ∨ ∃ m ∈ msgs, subscribes m room := by
  intro msgs
  induction msgs with
  | nil =>
    intro c room h
    exact Or.inl (by simpa [run_chat] using h)
  | cons m rest ih =>
    intro c room h
    have h' := ih (handle_chat_message ext c m).1 room (by simpa [run_chat] using h)
    rcases h' with h' | ⟨m', hm', hs⟩
    · rcases mem_rooms_after_handle ext c m room h' with h'' | hs
      · exact Or.inl h''
      · exact Or.inr ⟨m, List.mem_cons_self m rest, hs⟩
    · exact Or.inr ⟨m', List.mem_cons_of_mem m hm', hs⟩

/-- Claim C4: invariant over every sequence of handled chat messages.
Starting from the freshly initialised session (empty registry, as
`__init__` creates it), the registry never contains a room from which the
subscribe command was not issued, and every stored identifier is one of
exactly the two enum values player and spectator. -/
theorem registry_invariant (ext : Externals) (c0 : Chatter)
    (h0 : c0.print_eval_rooms = ∅) (msgs : List Chat_Message) (room : Room)
    (hmem : room ∈ (run_chat ext c0 msgs).print_eval_rooms) :
    (∃ m ∈ msgs, subscribes m room) ∧
      (room = Room.player ∨ room = Room.spectator) := by
  refine ⟨?_, by cases room <;> simp⟩
  rcases mem_rooms_run_chat ext msgs c0 room hmem with h | h
  · rw [h0] at h
    exact absurd h (Finset.not_mem_empty room)
  · exact h

/-- Witness for claim C4 at a one-event sequence subscribing the spectator
room. -/
theorem registry_invariant_witness :
    (∃ m ∈ [(⟨"bob", Room.spectator, "!printeval"⟩ : Chat_Message)],
        subscribes m Room.spectator) ∧
      (Room.spectator = Room.player ∨ Room.spectator = Room.spectator) :=
  registry_invariant ext0 slow_session rfl
    [⟨"bob", Room.spectator, "!printeval"⟩] Room.spectator (by decide)

/-- Scanning brace-free literal text copies it verbatim. -/
theorem format_map_aux_lit (mapping : String → String) :
    ∀ (s : List Char), (∀ ch ∈ s, ch ≠ '\x7b' ∧ ch ≠ '\x7d') →
      ∀ (rest : List Char),
        format_map_aux mapping (s ++ rest) none =
          Option.map (fun tl => s ++ tl) (format_map_aux mapping rest none) := by
  intro s
  induction s with
  | nil =>
    intro _ rest
    cases hx : format_map_aux mapping rest none <;> simp [hx]
  | cons ch s ih =>
    intro hs rest
    have hch := hs ch (List.mem_cons_self ch s)
    simp only [List.cons_append, format_map_aux, if_neg hch.1, if_neg hch.2, List.append_eq]
    rw [ih (fun c hc => hs c (List.mem_cons_of_mem ch hc)) rest]
    cases hx : format_map_aux mapping rest none <;> simp [hx]

/-- A simple named field contains no brace character. -/
theorem simple_name_brace_free (n : String) (h : simple_name n) :
    ∀ ch ∈ n.data, ch ≠ '\x7b' ∧ ch ≠ '\x7d' := by
  intro ch hch
  rcases h.2.1 ch hch with h1 | h1 | h1 <;>
    constructor <;> intro he <;> rw [he] at h1 <;> exact absurd h1 (by decide)

/-- Scanning a brace-free field name up to its closing brace substitutes
the mapping's value for the name. -/
theorem format_map_aux_name (mapping : String → String) :
    ∀ (n : List Char), (∀ ch ∈ n, ch ≠ '\x7b' ∧ ch ≠ '\x7d') →
      ∀ (acc rest : List Char),
        format_map_aux mapping (n ++ '\x7d' :: rest) (some acc) =
          Option.map (fun tl => (mapping (String.mk (acc.reverse ++ n))).data ++ tl)
            (format_map_aux mapping rest none) := by
  intro n
  induction n with
  | nil =>
    intro _ acc rest
    rw [List.nil_append]
    simp [format_map_aux]
  | cons ch n ih =>
    intro hn acc rest
    have hch := hn ch (List.mem_cons_self ch n)
    simp only [List.cons_append, format_map_aux, if_neg hch.2, List.append_eq]
    rw [ih (fun c hc => hn c (List.mem_cons_of_mem ch hc)) (ch :: acc) rest]
    have hacc : (ch :: acc).reverse ++ n = acc.reverse ++ (ch :: n) := by
      simp [List.reverse_cons, List.append_assoc]
    rw [hacc]

/-- A successful `format_map` run, read back at the character level. -/
theorem format_map_of_some (mapping : String → String) (t res : String)
    (hres : format_map mapping t = some res) :
    format_map_aux mapping t.data none = some res.data := by
  unfold format_map at hres
  cases hx : format_map_aux mapping t.data none with
  | none => rw [hx] at hres; simp at hres
  | some l =>
    rw [hx] at hres
    simp only [Option.map_some', Option.some.injEq] at hres
    rw [← hres]

/-- `str.format_map` never fails on a well-formed template and substitutes
every placeholder through the mapping. -/
theorem format_map_render (mapping : String → String) :
    ∀ (segs : List Segment), (∀ sg ∈ segs, wf_segment sg) →
      format_map mapping (render_template segs) = some (render_subst mapping segs) := by
  intro segs
  induction segs with
  | nil => intro _; rfl
  | cons sg rest ih =>
    intro hwf
    have hsg := hwf sg (List.mem_cons_self sg rest)
    have hrest := ih (fun s hs => hwf s (List.mem_cons_of_mem sg hs))
    have haux := format_map_of_some mapping (render_template rest) (render_subst mapping rest) hrest
    cases sg with
    | lit s =>
      simp only [render_template, format_map, String.data_append]
      rw [format_map_aux_lit mapping s.data hsg (render_template rest).data, haux]
      simp only [Option.map_some', render_subst]
      rfl
    | ph n =>
      simp only [render_template, format_map, String.data_append]
      have hshape : ("\x7b" : String).data ++ n.data ++ ("\x7d" : String).data ++
          (render_template rest).data =
          '\x7b' :: (n.data ++ '\x7d' :: (render_template rest).data) := by
        have hlb : ("\x7b" : String).data = ['\x7b'] := rfl
        have hrb : ("\x7d" : String).data = ['\x7d'] := rfl
        rw [hlb, hrb]
        simp [List.append_assoc]
      rw [hshape]
      have hstep : format_map_aux mapping
          ('\x7b' :: (n.data ++ '\x7d' :: (render_template rest).data)) none =
          format_map_aux mapping (n.data ++ '\x7d' :: (render_template rest).data) (some []) := by
        simp [format_map_aux]
      rw [hstep, format_map_aux_name mapping n.data (simple_name_brace_free n hsg) []
        (render_template rest).data, haux]
      simp only [Option.map_some', render_subst, List.reverse_nil, List.nil_append]
      rfl

/-- Substitution only depends on the mapping's values at the placeholder
names that occur. -/
theorem render_subst_congr (f g : String → String) :
    ∀ (segs : List Segment), (∀ n, Segment.ph n ∈ segs → f n = g n) →
      render_subst f segs = render_subst g segs := by
  intro segs
  induction segs with
  | nil => intro _; rfl
  | cons sg rest ih =>
    intro h
    cases sg with
    | lit s =>
      simp only [render_subst]
      rw [ih (fun n hn => h n (List.mem_cons_of_mem _ hn))]
    | ph n =>
      simp only [render_subst]
      rw [h n (List.mem_cons_self _ rest), ih (fun n hn => h n (List.mem_cons_of_mem _ hn))]

/-- Claim C3: for every template consisting of literal text and unknown
placeholder names — names formalised as simple named fields, the
identifier-like shape on which `str.format_map` performs a plain
whole-name lookup — `_format_message` never raises and returns the
template with each unknown placeholder rendered as the empty string; a
`None` or empty template yields no message, so the sender skips
sending. -/
theorem format_message_unknown (c : Chatter) (segs : List Segment)
    (hwf : ∀ sg ∈ segs, wf_segment sg)
    (hunknown : ∀ n, Segment.ph n ∈ segs → chatter_mapping c n = "")
    (hne : render_template segs ≠ "") :
    _format_message c (some (render_template segs)) =
        some (some (render_subst (fun _ => "") segs)) ∧
      _format_message c none = some none ∧
      _format_message c (some "") = some none := by
  refine ⟨?_, rfl, by simp [_format_message]⟩
  simp only [_format_message, if_neg hne]
  rw [format_map_render (chatter_mapping c) segs hwf,
    render_subst_congr (chatter_mapping c) (fun _ => "") segs hunknown]
  rfl

/-- Witness for claim C3 at a concrete one-placeholder template. -/
theorem format_message_unknown_witness :
    _format_message slow_session
        (some (render_template [Segment.lit "hello ", Segment.ph "unknown"])) =
        some (some (render_subst (fun _ => "")
          [Segment.lit "hello ", Segment.ph "unknown"])) ∧
      _format_message slow_session none = some none ∧
      _format_message slow_session (some "") = some none :=
  format_message_unknown slow_session [Segment.lit "hello ", Segment.ph "unknown"]
    (by intro sg hsg
        rcases List.mem_cons.mp hsg with h | h
        · subst h
          show brace_free "hello "
          decide
        · simp only [List.mem_singleton] at h
          subst h
          show simple_name "unknown"
          decide)
    (by intro n hn
        simp at hn
        subst hn
        decide)
    (by decide)
